import Mathlib

/-!
Shallow embedding of `src/main.cpp` (wav_cpp): a sine-tone generator that
writes a PCM WAV file.  Floating-point arithmetic of the source is idealised
as exact rational arithmetic (`ℚ`); machine integers are `ℕ`/`ℤ` with the
wrap-arounds made explicit (`% 2^32`, `% 2^64`, `% 2^16`).  The C++ standard
library's `sin` is kept abstract as a function parameter `sinq : ℚ → ℚ`, so
every definition stays computable.
-/

namespace wav

/-- `wav::SAMPLE_RATE` in `src/main.cpp`. -/
def SAMPLE_RATE : ℕ := 44100

/-- `wav::BIT_DEPTH`. -/
def BIT_DEPTH : ℕ := 16

/-- `wav::NUM_CHANNELS`. -/
def NUM_CHANNELS : ℕ := 1

/-- `wav::AUDIO_FORMAT` (PCM code). -/
def AUDIO_FORMAT : ℕ := 1

/-- `wav::FMT_CHUNK_SIZE`. -/
def FMT_CHUNK_SIZE : ℕ := 16

/-- `wav::HEADER_SIZE`. -/
def HEADER_SIZE : ℕ := 44

/-- A 4-byte tag (`std::array<char, 4>` of the packed header). -/
structure Tag4 where
  b0 : ℕ
  b1 : ℕ
  b2 : ℕ
  b3 : ℕ
deriving DecidableEq

/-- `wav::Header`: the packed 44-byte header struct.  Field values are the
bytes/machine integers held in memory; `uint32_t`/`uint16_t` fields are
modelled as `ℕ` (their stored values are always `< 2^32` / `< 2^16` where the
code assigns them). -/
structure Header where
  riffHeader : Tag4
  chunkSize : ℕ
  waveHeader : Tag4
  fmtHeader : Tag4
  subchunk1Size : ℕ
  audioFormat : ℕ
  numChannels : ℕ
  sampleRate : ℕ
  byteRate : ℕ
  blockAlign : ℕ
  bitsPerSample : ℕ
  dataHeader : Tag4
  dataSize : ℕ
deriving DecidableEq

end wav

/-- Little-endian bytes of a 2-byte unsigned field as laid out in memory. -/
def le16 (n : ℕ) : List ℕ := [n % 256, n / 256 % 256]

/-- Little-endian bytes of a 4-byte unsigned field as laid out in memory. -/
def le32 (n : ℕ) : List ℕ :=
  [n % 256, n / 256 % 256, n / 2 ^ 16 % 256, n / 2 ^ 24 % 256]

/-- The four raw bytes of a tag field. -/
def serializeTag (t : wav.Tag4) : List ℕ := [t.b0, t.b1, t.b2, t.b3]

/-- The 44 bytes produced by `file.write(reinterpret_cast<const char*>(&header),
sizeof(header))`: the packed struct's fields in declaration order, each
multi-byte integer little-endian (x86), no padding (`#pragma pack(push, 1)`). -/
def serializeHeader (h : wav.Header) : List ℕ :=
  serializeTag h.riffHeader ++ le32 h.chunkSize ++ serializeTag h.waveHeader ++
    serializeTag h.fmtHeader ++ le32 h.subchunk1Size ++ le16 h.audioFormat ++
    le16 h.numChannels ++ le32 h.sampleRate ++ le32 h.byteRate ++
    le16 h.blockAlign ++ le16 h.bitsPerSample ++ serializeTag h.dataHeader ++
    le32 h.dataSize

/-- `writeToFile`'s header construction (lines 114-116 of `src/main.cpp`):
`wav::Header header;` leaves every field with the indeterminate contents `h0`
of the stack memory (the struct has no constructor and no member
initialisers); then only two fields are assigned:
`header.dataSize = buffer.size() * sizeof(int16_t)` (`size_t` product, then
truncation to `uint32_t`) and
`header.chunkSize = wav::HEADER_SIZE + header.dataSize - 8` (`uint32_t`
arithmetic, subtraction wrapping mod `2^32`). -/
def mkHeader (h0 : wav.Header) (len : ℕ) : wav.Header :=
  let ds : ℕ := len * 2 % 2 ^ 64 % 2 ^ 32
  { h0 with
    dataSize := ds
    chunkSize := ((wav.HEADER_SIZE + ds) % 2 ^ 32 + (2 ^ 32 - 8)) % 2 ^ 32 }

/-- The chunked write loop of `writeToFile` (lines 121-130): while bytes
remain, write `min(remaining, 8192)` bytes from the current position and
advance.  Returns the byte stream the loop emits. -/
def writeLoop (data : List ℕ) (remaining : ℕ) : List ℕ :=
  if remaining = 0 then []
  else
    data.take (min remaining 8192) ++
      writeLoop (data.drop (min remaining 8192)) (remaining - min remaining 8192)
termination_by remaining
decreasing_by omega

/-- The in-memory bytes of one stored `int16_t` sample, little-endian. -/
def int16Bytes (i : ℤ) : List ℕ :=
  [(i % 65536).toNat % 256, (i % 65536).toNat / 256]

/-- The raw bytes of the sample buffer (`buffer.data()` viewed as chars). -/
def sampleBytes (buf : List ℤ) : List ℕ := (buf.map int16Bytes).flatten

/-- All bytes a successful `writeToFile` sends to the stream, for a writer
holding `buf` and uninitialised header memory `h0`: the 44 header bytes
followed by the loop's output, whose byte count is `header.dataSize`. -/
def fileBytes (buf : List ℤ) (h0 : wav.Header) : List ℕ :=
  let header := mkHeader h0 buf.length
  serializeHeader header ++ writeLoop (sampleBytes buf) header.dataSize

/-- Header whose every byte of uninitialised memory happens to be zero. -/
def zeroHeader : wav.Header :=
  { riffHeader := ⟨0, 0, 0, 0⟩, chunkSize := 0, waveHeader := ⟨0, 0, 0, 0⟩,
    fmtHeader := ⟨0, 0, 0, 0⟩, subchunk1Size := 0, audioFormat := 0,
    numChannels := 0, sampleRate := 0, byteRate := 0, blockAlign := 0,
    bitsPerSample := 0, dataHeader := ⟨0, 0, 0, 0⟩, dataSize := 0 }

/-- A second possible content of the same uninitialised memory, differing from
`zeroHeader` in the first byte. -/
def oneHeader : wav.Header := { zeroHeader with riffHeader := ⟨1, 0, 0, 0⟩ }

-- Basic facts about the serialized sizes and the loop.

theorem serializeTag_length (t : wav.Tag4) : (serializeTag t).length = 4 := rfl

theorem serializeHeader_length (h : wav.Header) :
    (serializeHeader h).length = 44 := by
  simp [serializeHeader, serializeTag, le16, le32]

theorem mkHeader_dataSize (h0 : wav.Header) (len : ℕ) :
    (mkHeader h0 len).dataSize = 2 * len % 2 ^ 32 := by
  simp only [mkHeader]
  omega

theorem mkHeader_chunkSize (h0 : wav.Header) (len : ℕ) :
    (mkHeader h0 len).chunkSize = (36 + 2 * len) % 2 ^ 32 := by
  simp only [mkHeader, wav.HEADER_SIZE]
  omega

theorem writeLoop_eq_take (data : List ℕ) (remaining : ℕ) :
    writeLoop data remaining = data.take remaining := by
  induction remaining using Nat.strong_induction_on generalizing data with
  | _ remaining ih =>
    rw [writeLoop]
    by_cases h : remaining = 0
    · simp [h]
    · simp only [h, if_false]
      rw [ih (remaining - min remaining 8192) (by omega) (data.drop (min remaining 8192))]
      conv_rhs =>
        rw [show remaining = min remaining 8192 + (remaining - min remaining 8192) by omega]
      rw [List.take_add]

theorem sampleBytes_length (buf : List ℤ) :
    (sampleBytes buf).length = 2 * buf.length := by
  induction buf with
  | nil => rfl
  | cons a l ih =>
    simp [sampleBytes, int16Bytes] at ih ⊢
    omega

theorem fileBytes_length (buf : List ℤ) (h0 : wav.Header) :
    (fileBytes buf h0).length = 44 + 2 * buf.length % 2 ^ 32 := by
  have hm : 2 * buf.length % 2 ^ 32 ≤ 2 * buf.length := Nat.mod_le _ _
  simp [fileBytes, writeLoop_eq_take, serializeHeader_length, mkHeader_dataSize,
    sampleBytes_length]
  omega

/-- `SineOscillator::TWO_PI = 2.0f * static_cast<float>(M_PI)`: the exact
rational value of that `float` constant (`0x40C90FDB`). -/
def TWO_PI : ℚ := 13176795 / 2097152

/-- The state of a `SineOscillator` (all four data members). -/
structure SineOscillator where
  frequency : ℚ
  amplitude : ℚ
  angle : ℚ
  angleStep : ℚ
deriving DecidableEq

/-- `SineOscillator::SineOscillator(freq, amp)`: `angle = 0`,
`angleStep = TWO_PI * freq / wav::SAMPLE_RATE`. -/
def mkSineOscillator (freq amp : ℚ) : SineOscillator :=
  { frequency := freq, amplitude := amp, angle := 0,
    angleStep := TWO_PI * freq / (wav.SAMPLE_RATE : ℚ) }

/-- The phase update of `process`: `angle += angleStep;
if (angle >= TWO_PI) angle -= TWO_PI;`. -/
def wrapAngle (a : ℚ) : ℚ := if TWO_PI ≤ a then a - TWO_PI else a

/-- `SineOscillator::process()`, with `std::sin` abstracted as `sinq`:
returns `amplitude * sin(angle)` computed at the pre-call phase, paired with
the successor state.  The C++ function is `noexcept` and total; the model is
a total pure function accordingly. -/
def process (sinq : ℚ → ℚ) (s : SineOscillator) : ℚ × SineOscillator :=
  (s.amplitude * sinq s.angle, { s with angle := wrapAngle (s.angle + s.angleStep) })

/-- The oscillator state after `n` calls to `process`, starting from a
freshly constructed oscillator. -/
def oscAfter (sinq : ℚ → ℚ) (freq amp : ℚ) (n : ℕ) : SineOscillator :=
  (fun s => (process sinq s).2)^[n] (mkSineOscillator freq amp)

/-- Truncation toward zero, the semantics of C++'s float-to-signed-integer
conversion (`[conv.fpint]`). -/
def ratTrunc (q : ℚ) : ℤ := if 0 ≤ q then ⌊q⌋ else ⌈q⌉

/-- Reinterpretation of the low 16 bits of an integer as a two's-complement
`int16_t`.  This embeds the `static_cast<int16_t>` at line 101: for values
whose truncation fits in `int16_t` the cast is exact; for out-of-range values
ISO C++ leaves the conversion undefined and the reference behaviour (stated
by the spec and produced by the x86 toolchain for these magnitudes) is
two's-complement wrap-around, which is what this models. -/
def wrap16 (t : ℤ) : ℤ :=
  if 32768 ≤ t % 65536 then t % 65536 - 65536 else t % 65536

/-- The state of a `WavWriter`: its sample buffer and its `maxAmplitude`
member, set by the constructor to `std::pow(2.0, wav::BIT_DEPTH - 1) - 1`
(exactly `2^15 - 1 = 32767` in `double`). -/
structure WavWriter where
  buffer : List ℤ
  maxAmplitude : ℚ
deriving DecidableEq

/-- `WavWriter::WavWriter()`: empty buffer (the `reserve` call only
pre-allocates capacity and stores nothing). -/
def mkWavWriter : WavWriter :=
  { buffer := [], maxAmplitude := 2 ^ (wav.BIT_DEPTH - 1) - 1 }

/-- `WavWriter::addSample(sample)`:
`buffer.push_back(static_cast<int16_t>(sample * maxAmplitude))`. -/
def addSample (w : WavWriter) (sample : ℚ) : WavWriter :=
  { w with buffer := w.buffer ++ [wrap16 (ratTrunc (sample * w.maxAmplitude))] }

/-- The value `addSample` stores for input `q` on a constructed writer
(`maxAmplitude = 32767`). -/
def quantize (q : ℚ) : ℤ := wrap16 (ratTrunc (q * (2 ^ 15 - 1)))

/-- The generation loop of `main` (lines 147-149): `n` times, pull a sample
from the oscillator and add it to the writer. -/
def genLoop (sinq : ℚ → ℚ) : ℕ → SineOscillator → WavWriter → WavWriter
  | 0, _, w => w
  | n + 1, osc, w =>
    let p := process sinq osc
    genLoop sinq n p.2 (addSample w p.1)

/-- The sample buffer `main` accumulates: `SAMPLE_RATE * DURATION_SECONDS =
88200` pulls from `SineOscillator(440.0f, 0.5f)` into a fresh writer. -/
def programBuffer (sinq : ℚ → ℚ) : List ℤ :=
  (genLoop sinq (wav.SAMPLE_RATE * 2) (mkSineOscillator 440 (1 / 2)) mkWavWriter).buffer

/-- The bytes one full program run writes to `audio.wav`, as a function of
the indeterminate stack memory `h0` behind the uninitialised header. -/
def programBytes (sinq : ℚ → ℚ) (h0 : wav.Header) : List ℕ :=
  fileBytes (programBuffer sinq) h0

/-- `WavWriter::writeToFile` control flow and result.  `canOpen` is the
environment fact "the `ofstream` opened successfully"; `writeOk` is the
environment fact "every subsequent stream write succeeded".  The source
throws `std::runtime_error("Could not open file: " + filename)` exactly when
the open fails (line 111); after that point the stream is never queried
again — a failed `file.write` merely sets the stream's error state (the
default `ofstream` exception mask throws nothing), so the function still
returns normally.  On a failed write the on-disk contents are
unspecified/partial, modelled as `none`. -/
def writeToFileR (canOpen writeOk : Bool) (buf : List ℤ) (h0 : wav.Header) :
    Except String (Option (List ℕ)) :=
  if canOpen then
    Except.ok (if writeOk then some (fileBytes buf h0) else none)
  else
    Except.error ("Could not open file: " ++ "audio.wav")

/-- Whether an `Except` result is the error case (a thrown exception). -/
def exceptHasError {α : Type} : Except String α → Bool
  | Except.error _ => true
  | Except.ok _ => false

/-- `main`: runs the pipeline, and on a thrown exception prints
`"Error: " ++ e.what()` to `stderr` and returns 1, otherwise returns 0
(lines 136-158).  Result: (exit code, lines printed to standard error). -/
def mainR (sinq : ℚ → ℚ) (h0 : wav.Header) (canOpen writeOk : Bool) :
    ℕ × List String :=
  match writeToFileR canOpen writeOk (programBuffer sinq) h0 with
  | Except.ok _ => (0, [])
  | Except.error e => (1, ["Error: " ++ e])

-- Concrete quantization values, proved via exact rational bounds.

theorem quantize_one : quantize 1 = 32767 := by
  have h1 : ratTrunc ((1 : ℚ) * (2 ^ 15 - 1)) = 32767 := by
    rw [ratTrunc, if_pos (by norm_num), Int.floor_eq_iff]
    constructor <;> norm_num
  rw [quantize, h1]
  norm_num [wrap16]

theorem quantize_neg_one : quantize (-1) = -32767 := by
  have h1 : ratTrunc ((-1 : ℚ) * (2 ^ 15 - 1)) = -32767 := by
    rw [ratTrunc, if_neg (by norm_num), Int.ceil_eq_iff]
    constructor <;> norm_num
  rw [quantize, h1]
  norm_num [wrap16]

theorem quantize_zero : quantize 0 = 0 := by
  have h1 : ratTrunc ((0 : ℚ) * (2 ^ 15 - 1)) = 0 := by
    rw [ratTrunc, if_pos (by norm_num), Int.floor_eq_iff]
    constructor <;> norm_num
  rw [quantize, h1]
  norm_num [wrap16]

theorem quantize_two : quantize 2 = -2 := by
  have h1 : ratTrunc ((2 : ℚ) * (2 ^ 15 - 1)) = 65534 := by
    rw [ratTrunc, if_pos (by norm_num), Int.floor_eq_iff]
    constructor <;> norm_num
  rw [quantize, h1]
  norm_num [wrap16]

theorem quantize_neg_two : quantize (-2) = 2 := by
  have h1 : ratTrunc ((-2 : ℚ) * (2 ^ 15 - 1)) = -65534 := by
    rw [ratTrunc, if_neg (by norm_num), Int.ceil_eq_iff]
    constructor <;> norm_num
  rw [quantize, h1]
  norm_num [wrap16]

theorem quantize_three_halves : quantize (3 / 2) = -16386 := by
  have h1 : ratTrunc ((3 / 2 : ℚ) * (2 ^ 15 - 1)) = 49150 := by
    rw [ratTrunc, if_pos (by norm_num), Int.floor_eq_iff]
    constructor <;> norm_num
  rw [quantize, h1]
  norm_num [wrap16]

/-- C3: `addSample` multiplies its input by the writer's `maxAmplitude`
member, which the constructor sets to `2^15 - 1 = 32767`, truncates the
product toward zero, converts to `int16_t`, and appends the result to the
buffer; exactly `1.0` is stored as `32767`, exactly `-1.0` as `-32767`
(not `-32768`), and `0.0` as `0`. -/
theorem addSample_quantization :
    (∀ (w : WavWriter) (s : ℚ),
      (addSample w s).buffer = w.buffer ++ [wrap16 (ratTrunc (s * w.maxAmplitude))]) ∧
    mkWavWriter.maxAmplitude = 32767 ∧
    (∀ s : ℚ, (addSample mkWavWriter s).buffer = [quantize s]) ∧
    quantize 1 = 32767 ∧ quantize (-1) = -32767 ∧ quantize 0 = 0 := by
  refine ⟨fun w s => rfl, by norm_num [mkWavWriter, wav.BIT_DEPTH], fun s => rfl,
    quantize_one, quantize_neg_one, quantize_zero⟩

/-- C8: `addSample` never clamps: the scaled value is stored through
two's-complement truncation to 16 bits.  An input of `2.0` (scaled value
`65534`) is stored as `-2`, not the saturated `32767`; `-2.0` is stored as
`2`, not `-32768`; `1.5` (scaled value `49150`) is stored as `-16386`. -/
theorem addSample_no_clamping :
    (∀ (w : WavWriter) (s : ℚ),
      (addSample w s).buffer = w.buffer ++ [wrap16 (ratTrunc (s * w.maxAmplitude))]) ∧
    quantize 2 = -2 ∧ quantize 2 ≠ 32767 ∧
    quantize (-2) = 2 ∧ quantize (-2) ≠ -32768 ∧
    quantize (3 / 2) = -16386 := by
  refine ⟨fun w s => rfl, quantize_two, ?_, quantize_neg_two, ?_, quantize_three_halves⟩
  · rw [quantize_two]; decide
  · rw [quantize_neg_two]; decide

/-- C10: under the precondition `|s| ≤ 1`, the scaled value `s * 32767` lies
in `[-32767, 32767]`, so its truncation is representable in `int16_t`: the
16-bit wrap-around is the identity there (the overflow branch of the
conversion is unreachable) and the stored value lies in the signed 16-bit
range. -/
theorem scaled_sample_in_range (q : ℚ) (hlo : -1 ≤ q) (hhi : q ≤ 1) :
    -32767 ≤ ratTrunc (q * (2 ^ 15 - 1)) ∧
    ratTrunc (q * (2 ^ 15 - 1)) ≤ 32767 ∧
    wrap16 (ratTrunc (q * (2 ^ 15 - 1))) = ratTrunc (q * (2 ^ 15 - 1)) ∧
    quantize q = ratTrunc (q * (2 ^ 15 - 1)) := by
  have hx1 : (-32767 : ℚ) ≤ q * (2 ^ 15 - 1) := by nlinarith
  have hx2 : q * (2 ^ 15 - 1) ≤ (32767 : ℚ) := by nlinarith
  have hb : -32767 ≤ ratTrunc (q * (2 ^ 15 - 1)) ∧
      ratTrunc (q * (2 ^ 15 - 1)) ≤ 32767 := by
    rw [ratTrunc]
    split
    · constructor
      · have h0 : (0 : ℤ) ≤ ⌊q * (2 ^ 15 - 1)⌋ := Int.floor_nonneg.mpr (by assumption)
        omega
      · have h1 : (⌊q * (2 ^ 15 - 1)⌋ : ℚ) ≤ 32767 :=
          le_trans (Int.floor_le _) hx2
        exact_mod_cast h1
    · constructor
      · have h1 : (-32767 : ℚ) ≤ (⌈q * (2 ^ 15 - 1)⌉ : ℚ) :=
          le_trans hx1 (Int.le_ceil _)
        exact_mod_cast h1
      · have hneg : q * (2 ^ 15 - 1) ≤ 0 := by
          rename (0 : ℚ) ≤ q * (2 ^ 15 - 1) → False => hcond
          nlinarith [lt_of_not_le hcond]
        have h1 : ⌈q * (2 ^ 15 - 1)⌉ ≤ (0 : ℤ) := Int.ceil_le.mpr (by exact_mod_cast hneg)
        omega
  have hw : wrap16 (ratTrunc (q * (2 ^ 15 - 1))) = ratTrunc (q * (2 ^ 15 - 1)) := by
    rw [wrap16]
    split <;> omega
  exact ⟨hb.1, hb.2, hw, hw⟩

/-- Witness for C10 at the concrete input `1/2`. -/
theorem scaled_sample_in_range_witness :
    (-1 ≤ (1 / 2 : ℚ) ∧ (1 / 2 : ℚ) ≤ 1) ∧
    (-32767 ≤ ratTrunc ((1 / 2 : ℚ) * (2 ^ 15 - 1)) ∧
     ratTrunc ((1 / 2 : ℚ) * (2 ^ 15 - 1)) ≤ 32767 ∧
     wrap16 (ratTrunc ((1 / 2 : ℚ) * (2 ^ 15 - 1))) = ratTrunc ((1 / 2 : ℚ) * (2 ^ 15 - 1)) ∧
     quantize (1 / 2) = ratTrunc ((1 / 2 : ℚ) * (2 ^ 15 - 1))) :=
  ⟨⟨by norm_num, by norm_num⟩,
    scaled_sample_in_range (1 / 2) (by norm_num) (by norm_num)⟩

/-- C1 (code bug): `writeToFile` assigns only `dataSize` and `chunkSize`;
every tag and static format field of the header keeps whatever the
uninitialised stack memory held, so nothing ever stores "RIFF", "WAVE",
"fmt ", "data", nor `16`, `1`, `1`, `44100`, `88200`, `2`, `16` into the
emitted header.  Concretely, when the indeterminate memory is all zeros the
first four emitted bytes are `[0, 0, 0, 0]`, not ASCII "RIFF"
(`[82, 73, 70, 70]`). -/
theorem wav_header_tags_never_initialized :
    (∀ (h0 : wav.Header) (L : ℕ),
      (mkHeader h0 L).riffHeader = h0.riffHeader ∧
      (mkHeader h0 L).waveHeader = h0.waveHeader ∧
      (mkHeader h0 L).fmtHeader = h0.fmtHeader ∧
      (mkHeader h0 L).dataHeader = h0.dataHeader ∧
      (mkHeader h0 L).subchunk1Size = h0.subchunk1Size ∧
      (mkHeader h0 L).audioFormat = h0.audioFormat ∧
      (mkHeader h0 L).numChannels = h0.numChannels ∧
      (mkHeader h0 L).sampleRate = h0.sampleRate ∧
      (mkHeader h0 L).byteRate = h0.byteRate ∧
      (mkHeader h0 L).blockAlign = h0.blockAlign ∧
      (mkHeader h0 L).bitsPerSample = h0.bitsPerSample) ∧
    (serializeHeader (mkHeader zeroHeader 88200)).take 4 ≠ [82, 73, 70, 70] := by
  refine ⟨fun h0 L => ?_, ?_⟩
  · simp [mkHeader]
  have h4 : (serializeHeader (mkHeader zeroHeader 88200)).take 4 =
      serializeTag (mkHeader zeroHeader 88200).riffHeader := rfl
  rw [h4]
  simp [serializeTag, mkHeader, zeroHeader]

/-- C2 (amended): the `uint32_t` fields wrap.  For a buffer of `L` samples
`writeToFile` stores `dataSize = 2L mod 2^32` and
`chunkSize = (36 + 2L) mod 2^32`; these equal `2L` and `36 + 2L` exactly
when they fit in 32 bits. -/
theorem header_sizes_mod32 (h0 : wav.Header) (L : ℕ) :
    (mkHeader h0 L).dataSize = 2 * L % 2 ^ 32 ∧
    (mkHeader h0 L).chunkSize = (36 + 2 * L) % 2 ^ 32 :=
  ⟨mkHeader_dataSize h0 L, mkHeader_chunkSize h0 L⟩

/-- Counterexample to C2 as stated: for `L = 2^31` samples the stored
`dataSize` is `0`, not `2 * 2^31 = 2^32`, and the stored `chunkSize` is
`36`, not `36 + 2^32`. -/
theorem header_sizes_counterexample :
    (mkHeader zeroHeader (2 ^ 31)).dataSize ≠ 2 * 2 ^ 31 ∧
    (mkHeader zeroHeader (2 ^ 31)).chunkSize ≠ 36 + 2 * 2 ^ 31 := by
  constructor
  · rw [mkHeader_dataSize]; norm_num
  · rw [mkHeader_chunkSize]; norm_num

/-- The byte stream the spec describes for a successful write (§4.2 step 4,
§6): the 44-byte header followed by the sample buffer's raw bytes in one
verbatim piece. -/
def verbatimFileBytes (buf : List ℤ) (h0 : wav.Header) : List ℕ :=
  serializeHeader (mkHeader h0 buf.length) ++ sampleBytes buf

/-- C4 (amended): the loop writes `header.dataSize = 2L mod 2^32` bytes, so
the claim holds whenever `2L` fits in 32 bits: the emitted bytes are exactly
the 44 header bytes followed by the buffer's raw little-endian bytes, the
8192-byte chunked loop equals one verbatim write of the whole buffer, and
the total size is `44 + 2L`. -/
theorem writeToFile_bytes_verbatim (buf : List ℤ) (h0 : wav.Header)
    (h : 2 * buf.length < 2 ^ 32) :
    fileBytes buf h0 = verbatimFileBytes buf h0 ∧
    writeLoop (sampleBytes buf) (mkHeader h0 buf.length).dataSize = sampleBytes buf ∧
    (fileBytes buf h0).length = 44 + 2 * buf.length := by
  have hds : (mkHeader h0 buf.length).dataSize = 2 * buf.length := by
    rw [mkHeader_dataSize]; omega
  have hloop : writeLoop (sampleBytes buf) (mkHeader h0 buf.length).dataSize =
      sampleBytes buf := by
    rw [hds, writeLoop_eq_take, ← sampleBytes_length, List.take_length]
  refine ⟨?_, hloop, ?_⟩
  · show serializeHeader (mkHeader h0 buf.length) ++
        writeLoop (sampleBytes buf) (mkHeader h0 buf.length).dataSize =
        verbatimFileBytes buf h0
    rw [hloop, verbatimFileBytes]
  · rw [fileBytes_length]; omega

/-- Witness for C4 at the concrete buffer `[5, -3]`. -/
theorem writeToFile_bytes_verbatim_witness :
    2 * ([(5 : ℤ), -3]).length < 2 ^ 32 ∧
    (fileBytes [(5 : ℤ), -3] zeroHeader = verbatimFileBytes [(5 : ℤ), -3] zeroHeader ∧
     writeLoop (sampleBytes [(5 : ℤ), -3]) (mkHeader zeroHeader ([(5 : ℤ), -3]).length).dataSize =
       sampleBytes [(5 : ℤ), -3] ∧
     (fileBytes [(5 : ℤ), -3] zeroHeader).length = 44 + 2 * ([(5 : ℤ), -3]).length) :=
  ⟨by norm_num, writeToFile_bytes_verbatim [(5 : ℤ), -3] zeroHeader (by norm_num)⟩

/-- Counterexample to C4 as stated: for a buffer of `2^31` zero samples the
file is `44` bytes long (the loop byte count `2L mod 2^32` is `0`), not
`44 + 2 * 2^31`. -/
theorem writeToFile_size_counterexample :
    (fileBytes (List.replicate (2 ^ 31) (0 : ℤ)) zeroHeader).length ≠
      44 + 2 * (List.replicate (2 ^ 31) (0 : ℤ)).length := by
  rw [fileBytes_length, List.length_replicate]
  norm_num

/-- C6: `process()` returns `amplitude * sin(angle)` computed at the phase
held before the call, then advances the phase by the fixed increment
`angleStep` with the single-subtraction wrap; it is a total function (the
C++ method is `noexcept`) and the successor state differs from the input
state only in `angle` — `frequency`, `amplitude` and `angleStep` are
unchanged. -/
theorem process_spec (sinq : ℚ → ℚ) (s : SineOscillator) :
    (process sinq s).1 = s.amplitude * sinq s.angle ∧
    (process sinq s).2.angle = wrapAngle (s.angle + s.angleStep) ∧
    (process sinq s).2.frequency = s.frequency ∧
    (process sinq s).2.amplitude = s.amplitude ∧
    (process sinq s).2.angleStep = s.angleStep :=
  ⟨rfl, rfl, rfl, rfl, rfl⟩

theorem wrapAngle_mem (a st : ℚ) (ha0 : 0 ≤ a) (ha1 : a < TWO_PI)
    (hs0 : 0 < st) (hs1 : st < TWO_PI) :
    0 ≤ wrapAngle (a + st) ∧ wrapAngle (a + st) < TWO_PI := by
  rw [wrapAngle]
  split
  · constructor <;> [linarith; linarith]
  · rename ¬TWO_PI ≤ a + st => h
    constructor <;> [linarith; linarith [lt_of_not_le h]]

/-- C5: for `0 < f < 22050` (half the fixed sample rate 44100) and starting
phase `0`, the oscillator's phase stays in `[0, TWO_PI)` after every
`process()` call: the per-sample increment is positive and smaller than
`TWO_PI`, so the single conditional subtraction always re-establishes the
range. -/
theorem phase_invariant (sinq : ℚ → ℚ) (f a : ℚ) (n : ℕ)
    (h1 : 0 < f) (h2 : f < 22050) :
    0 ≤ (oscAfter sinq f a n).angle ∧ (oscAfter sinq f a n).angle < TWO_PI := by
  have htp : (0 : ℚ) < TWO_PI := by norm_num [TWO_PI]
  have hsr : ((wav.SAMPLE_RATE : ℕ) : ℚ) = 44100 := by norm_num [wav.SAMPLE_RATE]
  have hs0 : 0 < TWO_PI * f / (wav.SAMPLE_RATE : ℚ) := by
    apply div_pos (mul_pos htp h1)
    rw [hsr]; norm_num
  have hs1 : TWO_PI * f / (wav.SAMPLE_RATE : ℚ) < TWO_PI := by
    rw [hsr, div_lt_iff₀ (by norm_num : (0 : ℚ) < 44100)]
    have hf : f < 44100 := by linarith
    calc TWO_PI * f < TWO_PI * 44100 := by
          exact mul_lt_mul_of_pos_left hf htp
      _ = TWO_PI * 44100 := rfl
  suffices h : (oscAfter sinq f a n).angleStep = TWO_PI * f / (wav.SAMPLE_RATE : ℚ) ∧
      0 ≤ (oscAfter sinq f a n).angle ∧ (oscAfter sinq f a n).angle < TWO_PI by
    exact ⟨h.2.1, h.2.2⟩
  induction n with
  | zero => exact ⟨rfl, le_refl 0, htp⟩
  | succ n ih =>
    obtain ⟨ihs, ih0, ih1⟩ := ih
    have hstep : oscAfter sinq f a (n + 1) = (process sinq (oscAfter sinq f a n)).2 := by
      rw [oscAfter, Function.iterate_succ_apply']
      rfl
    rw [hstep]
    refine ⟨by simp [process, ihs], ?_⟩
    have hmem := wrapAngle_mem (oscAfter sinq f a n).angle
      (TWO_PI * f / (wav.SAMPLE_RATE : ℚ)) ih0 ih1 hs0 hs1
    simp only [process]
    rw [ihs]
    exact hmem

/-- Witness for C5 at `f = 440`, amplitude `1/2`, after 3 calls. -/
theorem phase_invariant_witness :
    ((0 : ℚ) < 440 ∧ (440 : ℚ) < 22050) ∧
    (0 ≤ (oscAfter (fun _ => 0) 440 (1 / 2) 3).angle ∧
     (oscAfter (fun _ => 0) 440 (1 / 2) 3).angle < TWO_PI) :=
  ⟨⟨by norm_num, by norm_num⟩,
    phase_invariant (fun _ => 0) 440 (1 / 2) 3 (by norm_num) (by norm_num)⟩

theorem fileBytes_head (buf : List ℤ) (h0 : wav.Header) :
    (fileBytes buf h0).head? = some h0.riffHeader.b0 := by
  simp [fileBytes, serializeHeader, serializeTag, mkHeader]

/-- C9 (code bug): two executions of the whole program with the identical
fixed parameters (2 s, 440 Hz, amplitude 0.5) and the same `sin`
implementation produce output that still depends on the indeterminate
contents of the uninitialised header struct: if the stack memory behind the
header differs between the runs (here `zeroHeader` versus `oneHeader`,
differing in one byte), the output files differ, so byte-identical output is
not guaranteed. -/
theorem output_depends_on_uninitialized_header (sinq : ℚ → ℚ) :
    programBytes sinq zeroHeader ≠ programBytes sinq oneHeader := by
  intro heq
  have h := congrArg List.head? heq
  rw [programBytes, programBytes, fileBytes_head, fileBytes_head] at h
  simp [zeroHeader, oneHeader] at h

/-- C7 (amended): `writeToFile` throws exactly when the destination cannot
be opened; a failure of a subsequent stream write is never detected (the
default `ofstream` exception mask throws nothing and the stream state is
never checked after the open test), so it raises no error.  When the open
fails, `main` catches the exception, prints the single line
`"Error: " ++ what` to standard error and exits with code 1; otherwise it
prints nothing to standard error and exits with code 0 — even when every
write after the open failed. -/
theorem write_error_iff_open_failure (sinq : ℚ → ℚ) (h0 : wav.Header)
    (buf : List ℤ) (writeOk : Bool) :
    exceptHasError (writeToFileR false writeOk buf h0) = true ∧
    exceptHasError (writeToFileR true writeOk buf h0) = false ∧
    mainR sinq h0 false writeOk =
      (1, ["Error: " ++ ("Could not open file: " ++ "audio.wav")]) ∧
    (mainR sinq h0 false writeOk).2.length = 1 ∧
    (mainR sinq h0 true writeOk).1 = 0 ∧
    (mainR sinq h0 true writeOk).2 = ([] : List String) :=
  ⟨rfl, rfl, rfl, rfl, rfl, rfl⟩

/-- Counterexample to C7 as stated: when the file opens but a subsequent
write fails (`canOpen = true`, `writeOk = false`), no I/O error is raised
and the process exits with code 0, not 1. -/
theorem write_failure_not_raised :
    exceptHasError (writeToFileR true false [] zeroHeader) ≠ true ∧
    (mainR (fun _ => 0) zeroHeader true false).1 ≠ 1 :=
  ⟨fun h => by simp [writeToFileR, exceptHasError] at h,
   fun h => by simp [mainR, writeToFileR] at h⟩
